import Mathlib

/-!
Shallow embedding of the StreamingBackend signaling server (src/index.js, the
variant with `identify`, `pendingSignals`, `approvedViewerIds` and
`isViewerStreaming`), together with proofs about its room/session state
machine and signaling relay.

JavaScript `Set`s are modelled as insertion-ordered duplicate-free lists,
JavaScript `Map`s / plain objects used as dictionaries as association lists,
and every socket.io handler as a function `ServerState → ServerState × List Emit`
returning the updated server state and the ordered list of emitted events.
-/

namespace Streaming

/-- JS `String.prototype.trim`: drop leading and trailing whitespace.
Modelled structurally on the character list so that it evaluates in the
kernel (`String.trim` itself is defined by well-founded recursion). -/
def jsTrim (s : String) : String :=
  ⟨((s.data.dropWhile Char.isWhitespace).reverse.dropWhile Char.isWhitespace).reverse⟩

/-- JS `Set.add`: no-op when the element is already present, else append
(insertion order). -/
def setAdd (s : List String) (x : String) : List String :=
  if x ∈ s then s else s ++ [x]

/-- JS `Set.delete`. -/
def setDel (s : List String) (x : String) : List String :=
  match s with
  | [] => []
  | y :: rest => if y = x then setDel rest x else y :: setDel rest x

/-- Lookup in a JS `Map` (or a plain object used as a dictionary). -/
def mapFind {α : Type} (m : List (String × α)) (k : String) : Option α :=
  match m with
  | [] => none
  | (k₁, v) :: rest => if k₁ = k then some v else mapFind rest k

/-- JS `delete m[k]` / `Map.delete`. -/
def mapDel {α : Type} (m : List (String × α)) (k : String) : List (String × α) :=
  match m with
  | [] => []
  | (k₁, v) :: rest => if k₁ = k then mapDel rest k else (k₁, v) :: mapDel rest k

/-- JS `m[k] = v` / `Map.set`. -/
def mapSet {α : Type} (m : List (String × α)) (k : String) (v : α) : List (String × α) :=
  mapDel m k ++ [(k, v)]

/-- A chat entry `{ sender, message }` pushed by the send-message handler. -/
structure ChatMessage where
  sender : String
  message : String
deriving DecidableEq, Repr

/-- One room record, as built by the create-room handler:
`{ hostId, viewers, isStreaming, isHostReady, messages, approvedViewerIds,
isViewerStreaming }`. -/
structure Room where
  hostId : String
  viewers : List String
  isStreaming : Bool
  isHostReady : Bool
  messages : List ChatMessage
  approvedViewerIds : List String
  isViewerStreaming : List String
deriving DecidableEq, Repr

/-- The data part of a queued signal: the forwarded payload (`sdp` for
offer/answer, `candidate` for ice-candidate) plus the `sender` tag. -/
structure SigData where
  payload : String
  sender : String
deriving DecidableEq, Repr

/-- A queued signal `{ event, data }` as stored by `queueSignal`. -/
structure Signal where
  event : String
  data : SigData
deriving DecidableEq, Repr

/-- Destination of an emission: a single socket (`someSocket.emit`) or a
broadcast group (`io.to(roomId).emit`). -/
inductive Dest where
  | socket (sid : String)
  | room (roomId : String)
deriving DecidableEq, Repr

/-- Payload shapes of the outbound events used by the server. -/
inductive Payload where
  | empty
  | str (s : String)
  | roomCreated (roomId socketid : String)
  | roomJoined (roomId hostId : String) (isHostStreaming : Bool) (viewerCount : Nat)
      (messages : List ChatMessage) (approvedViewerIds : List String)
  | sig (d : SigData)
  | streamResp (accepted : Bool) (roomId : String) (hostId : Option String)
  | streamReq (viewerId name : String)
  | newMessage (m : ChatMessage)
  | roomInfo (hostId : String) (viewerCount : Nat) (isHostActive isHostStreaming : Bool)
      (isViewerStreaming approvedViewerIds : List String)
deriving DecidableEq, Repr

/-- One outbound emission. -/
structure Emit where
  dest : Dest
  event : String
  payload : Payload
deriving DecidableEq, Repr

/-- The server's global mutable state: `rooms`, `socketToRoom`, and the four
registry maps (`socketInstances`, `customIdToSocketId`, `socketIdToCustomId`,
`pendingSignals`).  `socketInstances` keeps only the ids of the registered
sockets; the `socket.name` field set by identify lives in `socketName`. -/
structure ServerState where
  rooms : List (String × Room)
  socketToRoom : List (String × String)
  socketInstances : List String
  customIdToSocketId : List (String × String)
  socketIdToCustomId : List (String × String)
  pendingSignals : List (String × List Signal)
  socketName : List (String × String)
deriving DecidableEq, Repr

/-- The empty state the process starts in. -/
def initState : ServerState :=
  ⟨[], [], [], [], [], [], []⟩

/-- The inbound events, each carrying the emitting socket's id first. -/
inductive Event where
  | identify (sid customid name : String)
  | createRoom (sid roomId : String)
  | joinRoom (sid roomId : String)
  | hostStreaming (sid roomId : String)
  | viewerStreaming (sid roomId : String)
  | offer (sid target sdp : String)
  | answer (sid target sdp : String)
  | iceCandidate (sid target candidate : String)
  | sendMessage (sid message : String)
  | leaveRoomEvent (sid : String)
  | disconnect (sid : String)
  | requestStream (sid : String)
  | respondStreamRequest (sid viewerId : String) (accepted : Bool)
  | stopViewerStream (sid viewerId : String)
deriving DecidableEq, Repr

/-- Source function `emitRoomInfo(roomId)`: broadcast the room-info snapshot to the room
(nothing when the room does not exist). -/
def emitRoomInfo (s : ServerState) (roomId : String) : List Emit :=
  match mapFind s.rooms roomId with
  | none => []
  | some r =>
      [⟨.room roomId, "room-info",
        .roomInfo r.hostId r.viewers.length (decide (r.hostId ∈ s.socketInstances))
          r.isStreaming r.isViewerStreaming r.approvedViewerIds⟩]

/-- Source function `queueSignal(targetId, signal)`: append to the target's pending queue,
creating it when absent. -/
def queueSignal (ps : List (String × List Signal)) (targetId : String) (g : Signal) :
    List (String × List Signal) :=
  match mapFind ps targetId with
  | none => mapSet ps targetId [g]
  | some q => mapSet ps targetId (q ++ [g])

/-- Source function `processQueuedSignals(socketId)`: when a pending queue exists for the id,
emit every entry in order through the live socket (when registered), then
delete the queue unconditionally. -/
def processQueuedSignals (s : ServerState) (socketId : String) : ServerState × List Emit :=
  match mapFind s.pendingSignals socketId with
  | none => (s, [])
  | some signals =>
      let emits :=
        if socketId ∈ s.socketInstances then
          signals.map (fun g => Emit.mk (.socket socketId) g.event (.sig g.data))
        else []
      ({ s with pendingSignals := mapDel s.pendingSignals socketId }, emits)

/-- The identify handler: validate the custom id, reject a bound id with
`socket-id-in-use`, otherwise record the binding, register the socket and
drain its pending queue. -/
def onIdentify (s : ServerState) (sid customid name : String) : ServerState × List Emit :=
  let customId := jsTrim customid
  if customId = "" then (s, [⟨.socket sid, "invalid-identify", .empty⟩])
  else if (mapFind s.customIdToSocketId customId).isSome then
    (s, [⟨.socket sid, "socket-id-in-use", .empty⟩])
  else
    let nm := if jsTrim name = "" then "Anonymous" else jsTrim name
    let s₁ : ServerState :=
      { s with
        socketName := mapSet s.socketName sid nm
        customIdToSocketId := mapSet s.customIdToSocketId customId sid
        socketIdToCustomId := mapSet s.socketIdToCustomId sid customId
        socketInstances := setAdd s.socketInstances sid }
    processQueuedSignals s₁ sid

/-- The create-room handler. -/
def onCreateRoom (s : ServerState) (sid roomId : String) : ServerState × List Emit :=
  if roomId = "" then (s, [⟨.socket sid, "invalid-room", .empty⟩])
  else if (mapFind s.rooms roomId).isSome then (s, [⟨.socket sid, "room-exists", .empty⟩])
  else
    let room : Room := ⟨sid, [], false, false, [], [], []⟩
    let s₁ : ServerState :=
      { s with
        rooms := mapSet s.rooms roomId room
        socketToRoom := mapSet s.socketToRoom sid roomId }
    (s₁, ⟨.socket sid, "room-created", .roomCreated roomId sid⟩ :: emitRoomInfo s₁ roomId)

/-- The join-room handler. -/
def onJoinRoom (s : ServerState) (sid roomId : String) : ServerState × List Emit :=
  match mapFind s.rooms roomId with
  | none => (s, [⟨.socket sid, "invalid-room", .empty⟩])
  | some r =>
      if r.viewers.length ≥ 10 then (s, [⟨.socket sid, "room-full", .empty⟩])
      else
        let r₁ : Room := { r with viewers := setAdd r.viewers sid }
        let s₁ : ServerState :=
          { s with
            rooms := mapSet s.rooms roomId r₁
            socketToRoom := mapSet s.socketToRoom sid roomId }
        let emits :=
          [Emit.mk (.socket sid) "room-joined"
            (.roomJoined roomId r.hostId r.isStreaming r₁.viewers.length r.messages
              r.approvedViewerIds)]
          ++ (if r.isHostReady then
                if r.hostId ∈ s.socketInstances then
                  [Emit.mk (.socket r.hostId) "user-joined" (.str sid)]
                else []
              else [])
          ++ (if r.isStreaming then
                [Emit.mk (.socket sid) "host-started-streaming" .empty,
                 Emit.mk (.socket sid) "viewer-joined" (.str r.hostId)]
              else [])
          ++ r.isViewerStreaming.map
              (fun v => Emit.mk (.socket sid) "viewer-started-streaming" (.str v))
          ++ emitRoomInfo s₁ roomId
        (s₁, emits)

/-- The host-streaming handler. -/
def onHostStreaming (s : ServerState) (sid roomId : String) : ServerState × List Emit :=
  match mapFind s.rooms roomId with
  | none => (s, [])
  | some r =>
      if r.hostId ≠ sid then (s, [])
      else
        let r₁ : Room := { r with isStreaming := true, isHostReady := true }
        let s₁ : ServerState := { s with rooms := mapSet s.rooms roomId r₁ }
        let emits :=
          r.viewers.flatMap (fun v =>
            if v ∈ s.socketInstances then
              [Emit.mk (.socket v) "host-started-streaming" .empty,
               Emit.mk (.socket v) "viewer-joined" (.str sid)]
            else [])
          ++ emitRoomInfo s₁ roomId
        (s₁, emits)

/-- The viewer-streaming handler: only an already-approved viewer may mark
itself streaming. -/
def onViewerStreaming (s : ServerState) (sid roomId : String) : ServerState × List Emit :=
  match mapFind s.rooms roomId with
  | none => (s, [])
  | some r =>
      if sid ∉ r.approvedViewerIds then (s, [])
      else
        let r₁ : Room := { r with isViewerStreaming := setAdd r.isViewerStreaming sid }
        let s₁ : ServerState := { s with rooms := mapSet s.rooms roomId r₁ }
        (s₁, ⟨.room roomId, "viewer-started-streaming", .str sid⟩ :: emitRoomInfo s₁ roomId)

/-- The shared shape of the offer / answer / ice-candidate handlers: forward
to a registered target, queue otherwise, drop silently on a missing field. -/
def relaySignal (s : ServerState) (sid : String) (eventName : String)
    (target payload : String) : ServerState × List Emit :=
  if target = "" ∨ payload = "" then (s, [])
  else if target ∈ s.socketInstances then
    (s, [⟨.socket target, eventName, .sig ⟨payload, sid⟩⟩])
  else
    ({ s with pendingSignals := queueSignal s.pendingSignals target ⟨eventName, ⟨payload, sid⟩⟩ },
     [])

/-- The offer handler. -/
def onOffer (s : ServerState) (sid target sdp : String) : ServerState × List Emit :=
  relaySignal s sid "offer" target sdp

/-- The answer handler. -/
def onAnswer (s : ServerState) (sid target sdp : String) : ServerState × List Emit :=
  relaySignal s sid "answer" target sdp

/-- The ice-candidate handler. -/
def onIceCandidate (s : ServerState) (sid target candidate : String) : ServerState × List Emit :=
  relaySignal s sid "ice-candidate" target candidate

/-- The send-message handler. -/
def onSendMessage (s : ServerState) (sid message : String) : ServerState × List Emit :=
  if message = "" then (s, [])
  else
    match mapFind s.socketToRoom sid with
    | none => (s, [])
    | some roomId =>
        match mapFind s.rooms roomId with
        | none => (s, [])
        | some r =>
            let r₁ : Room := { r with messages := r.messages ++ [⟨sid, message⟩] }
            ({ s with rooms := mapSet s.rooms roomId r₁ },
             [⟨.room roomId, "new-message", .newMessage ⟨sid, message⟩⟩])

/-- Source function `leaveRoom(socket, roomId)`: close the room when the leaver is the host
(notify and unmap every viewer, delete the room), otherwise remove the viewer
(revoking approval/streaming when present) and notify the host; in both
branches finally unmap the leaver, drop its pending queue and re-broadcast
room-info. -/
def leaveRoom (s : ServerState) (sid roomId : String) : ServerState × List Emit :=
  match mapFind s.rooms roomId with
  | none => (s, [])
  | some r =>
      if r.hostId = sid then
        let perViewer :=
          r.viewers.flatMap (fun v =>
            if v ∈ s.socketInstances then [Emit.mk (.socket v) "room-closed" .empty] else [])
        let s₁ : ServerState :=
          { s with
            socketToRoom := r.viewers.foldl (fun m v => mapDel m v) s.socketToRoom
            pendingSignals := r.viewers.foldl (fun m v => mapDel m v) s.pendingSignals }
        let s₂ : ServerState := { s₁ with rooms := mapDel s₁.rooms roomId }
        let s₃ : ServerState :=
          { s₂ with
            socketToRoom := mapDel s₂.socketToRoom sid
            pendingSignals := mapDel s₂.pendingSignals sid }
        (s₃, ⟨.room roomId, "host-left", .empty⟩ :: perViewer ++ emitRoomInfo s₃ roomId)
      else
        let r₁ : Room := { r with viewers := setDel r.viewers sid }
        let approved := sid ∈ r₁.approvedViewerIds
        let r₂ : Room :=
          if approved then
            { r₁ with
              approvedViewerIds := setDel r₁.approvedViewerIds sid
              isViewerStreaming := setDel r₁.isViewerStreaming sid }
          else r₁
        let stopEmits :=
          if approved then [Emit.mk (.room roomId) "viewer-stopped-streaming" (.str sid)] else []
        let hostEmit :=
          if r.hostId ∈ s.socketInstances then
            [Emit.mk (.socket r.hostId) "user-left" (.str sid)]
          else []
        let s₁ : ServerState := { s with rooms := mapSet s.rooms roomId r₂ }
        let s₂ : ServerState :=
          { s₁ with
            socketToRoom := mapDel s₁.socketToRoom sid
            pendingSignals := mapDel s₁.pendingSignals sid }
        (s₂, stopEmits ++ hostEmit ++ emitRoomInfo s₂ roomId)

/-- The leave-room handler: leave the mapped room when one is recorded. -/
def onLeaveRoom (s : ServerState) (sid : String) : ServerState × List Emit :=
  match mapFind s.socketToRoom sid with
  | none => (s, [])
  | some roomId => leaveRoom s sid roomId

/-- The disconnect handler: release the registries, then leave the mapped
room when one is recorded. -/
def onDisconnect (s : ServerState) (sid : String) : ServerState × List Emit :=
  let customId := mapFind s.socketIdToCustomId sid
  let s₁ : ServerState :=
    { s with
      socketInstances := setDel s.socketInstances sid
      pendingSignals := mapDel s.pendingSignals sid
      customIdToSocketId :=
        match customId with
        | some c => mapDel s.customIdToSocketId c
        | none => s.customIdToSocketId
      socketIdToCustomId := mapDel s.socketIdToCustomId sid
      socketName := mapDel s.socketName sid }
  match mapFind s₁.socketToRoom sid with
  | none => (s₁, [])
  | some roomId => leaveRoom s₁ sid roomId

/-- The request-stream handler. -/
def onRequestStream (s : ServerState) (sid : String) : ServerState × List Emit :=
  match mapFind s.socketToRoom sid with
  | none => (s, [])
  | some roomId =>
      match mapFind s.rooms roomId with
      | none => (s, [])
      | some r =>
          if r.hostId ∈ s.socketInstances then
            let nm :=
              match mapFind s.socketName sid with
              | some n => n
              | none =>
                  match mapFind s.socketIdToCustomId sid with
                  | some c => c
                  | none => "Unknown"
            (s, [⟨.socket r.hostId, "incoming-stream-request", .streamReq sid nm⟩])
          else (s, [])

/-- The respond-stream-request handler: the host of the responder's room
accepts (approving the viewer and draining its queue) or rejects. -/
def onRespondStreamRequest (s : ServerState) (sid viewerId : String) (accepted : Bool) :
    ServerState × List Emit :=
  match mapFind s.socketToRoom sid with
  | none => (s, [])
  | some roomId =>
      match mapFind s.rooms roomId with
      | none => (s, [])
      | some r =>
          if r.hostId ≠ sid then (s, [])
          else if viewerId ∈ s.socketInstances then
            if accepted then
              let r₁ : Room := { r with approvedViewerIds := setAdd r.approvedViewerIds viewerId }
              let s₁ : ServerState := { s with rooms := mapSet s.rooms roomId r₁ }
              let pq := processQueuedSignals s₁ viewerId
              (pq.1,
               ⟨.socket viewerId, "stream-request-response", .streamResp true roomId (some sid)⟩
                 :: pq.2)
            else
              (s, [⟨.socket viewerId, "stream-request-response", .streamResp false roomId none⟩])
          else (s, [])

/-- The stop-viewer-stream handler. -/
def onStopViewerStream (s : ServerState) (sid viewerId : String) : ServerState × List Emit :=
  match mapFind s.socketToRoom sid with
  | none => (s, [])
  | some roomId =>
      match mapFind s.rooms roomId with
      | none => (s, [])
      | some r =>
          if r.hostId ≠ sid then (s, [])
          else if viewerId ∈ r.approvedViewerIds then
            let r₁ : Room :=
              { r with
                approvedViewerIds := setDel r.approvedViewerIds viewerId
                isViewerStreaming := setDel r.isViewerStreaming viewerId }
            let s₁ : ServerState := { s with rooms := mapSet s.rooms roomId r₁ }
            let emits :=
              (if viewerId ∈ s.socketInstances then
                 [Emit.mk (.socket viewerId) "viewer-stopped-streaming" (.str viewerId)]
               else [])
              ++ [Emit.mk (.room roomId) "viewer-stopped-streaming" (.str viewerId)]
              ++ emitRoomInfo s₁ roomId
            (s₁, emits)
          else (s, [])

/-- Dispatch one inbound event to its handler. -/
def step (e : Event) (s : ServerState) : ServerState × List Emit :=
  match e with
  | .identify sid c n => onIdentify s sid c n
  | .createRoom sid roomId => onCreateRoom s sid roomId
  | .joinRoom sid roomId => onJoinRoom s sid roomId
  | .hostStreaming sid roomId => onHostStreaming s sid roomId
  | .viewerStreaming sid roomId => onViewerStreaming s sid roomId
  | .offer sid target sdp => onOffer s sid target sdp
  | .answer sid target sdp => onAnswer s sid target sdp
  | .iceCandidate sid target candidate => onIceCandidate s sid target candidate
  | .sendMessage sid message => onSendMessage s sid message
  | .leaveRoomEvent sid => onLeaveRoom s sid
  | .disconnect sid => onDisconnect s sid
  | .requestStream sid => onRequestStream s sid
  | .respondStreamRequest sid viewerId accepted => onRespondStreamRequest s sid viewerId accepted
  | .stopViewerStream sid viewerId => onStopViewerStream s sid viewerId

/-- Run a trace of events from the empty initial state. -/
def runTrace (es : List Event) : ServerState :=
  es.foldl (fun s e => (step e s).1) initState

/-- Agreement of host ids between two room tables: any room present in both
has the same hostId in both. -/
def hostAgree (rs₁ rs₂ : List (String × Room)) : Prop :=
  ∀ rid r₀ r₂, mapFind rs₁ rid = some r₀ → mapFind rs₂ rid = some r₂ → r₂.hostId = r₀.hostId

/-- Reachable server states: the initial state and anything an inbound event
produces from a reachable state. -/
inductive Reachable : ServerState → Prop where
  | init : Reachable initState
  | step (e : Event) {s : ServerState} : Reachable s → Reachable (step e s).1

/-- In a room table, every room's set of currently-streaming viewers is
contained in its set of approved streamers. -/
def roomsInv (rs : List (String × Room)) : Prop :=
  ∀ roomId r, mapFind rs roomId = some r →
    ∀ x ∈ r.isViewerStreaming, x ∈ r.approvedViewerIds

/-- Every room's set of currently-streaming viewers is contained in its set
of approved streamers. -/
def streamInv (s : ServerState) : Prop :=
  roomsInv s.rooms

/-- In a room table, every room's set of approved streamers is contained in
its viewer set. -/
def approvedSubsetViewers (rs : List (String × Room)) : Prop :=
  ∀ roomId r, mapFind rs roomId = some r →
    ∀ x ∈ r.approvedViewerIds, x ∈ r.viewers

/-- In a room table, no room's host id is a member of its viewer set. -/
def hostNotViewer (rs : List (String × Room)) : Prop :=
  ∀ roomId r, mapFind rs roomId = some r → r.hostId ∉ r.viewers

theorem reachable_runTrace (es : List Event) : Reachable (runTrace es) := by
  suffices h : ∀ s, Reachable s → Reachable (es.foldl (fun s e => (step e s).1) s) from
    h initState Reachable.init
  induction es with
  | nil => intro s hs; exact hs
  | cons e rest ih =>
      intro s hs
      exact ih _ (Reachable.step e hs)

theorem mapFind_del {α : Type} (m : List (String × α)) (k k' : String) :
    mapFind (mapDel m k) k' = if k' = k then none else mapFind m k' := by
  induction m with
  | nil => simp [mapFind, mapDel]
  | cons p rest ih =>
      obtain ⟨k₁, v⟩ := p
      simp only [mapDel, mapFind]
      by_cases h1 : k₁ = k
      · subst h1
        rw [if_pos rfl, ih]
        by_cases h2 : k' = k₁
        · simp [h2]
        · simp [h2, Ne.symm h2]
      · rw [if_neg h1]
        simp only [mapFind]
        by_cases h2 : k₁ = k'
        · subst h2
          simp [h1]
        · rw [if_neg h2, ih]
          by_cases h3 : k' = k <;> simp [h3, h2]

theorem mapFind_append {α : Type} (m₁ m₂ : List (String × α)) (k : String) :
    mapFind (m₁ ++ m₂) k = match mapFind m₁ k with
      | none => mapFind m₂ k
      | some v => some v := by
  induction m₁ with
  | nil => simp [mapFind]
  | cons p rest ih =>
      obtain ⟨k₁, v⟩ := p
      by_cases h : k₁ = k <;> simp [mapFind, h, ih]

theorem mapFind_set {α : Type} (m : List (String × α)) (k k' : String) (v : α) :
    mapFind (mapSet m k v) k' = if k' = k then some v else mapFind m k' := by
  rw [mapSet, mapFind_append, mapFind_del]
  by_cases h : k' = k
  · simp [h, mapFind]
  · cases hf : mapFind m k' <;> simp [h, Ne.symm h, hf, mapFind]

theorem mem_setAdd (s : List String) (x y : String) :
    y ∈ setAdd s x ↔ y ∈ s ∨ y = x := by
  by_cases h : x ∈ s
  · simp only [setAdd, if_pos h]
    constructor
    · exact Or.inl
    · rintro (hy | rfl)
      · exact hy
      · exact h
  · simp [setAdd, h]

theorem mem_setDel (s : List String) (x y : String) :
    y ∈ setDel s x ↔ y ∈ s ∧ y ≠ x := by
  induction s with
  | nil => simp [setDel]
  | cons z rest ih =>
      by_cases h : z = x
      · simp only [setDel, if_pos h, ih, List.mem_cons]
        subst h
        constructor
        · rintro ⟨hy, hne⟩; exact ⟨Or.inr hy, hne⟩
        · rintro ⟨hy | hy, hne⟩
          · exact absurd hy hne
          · exact ⟨hy, hne⟩
      · simp only [setDel, if_neg h, List.mem_cons, ih]
        constructor
        · rintro (rfl | ⟨hy, hne⟩)
          · exact ⟨Or.inl rfl, h⟩
          · exact ⟨Or.inr hy, hne⟩
        · rintro ⟨rfl | hy, hne⟩
          · exact Or.inl rfl
          · exact Or.inr ⟨hy, hne⟩

theorem mapFind_foldl_del {α : Type} (vs : List String) (m : List (String × α)) (k : String) :
    mapFind (vs.foldl (fun m v => mapDel m v) m) k
      = if k ∈ vs then none else mapFind m k := by
  induction vs generalizing m with
  | nil => simp
  | cons v rest ih =>
      simp only [List.foldl_cons, ih, mapFind_del, List.mem_cons]
      by_cases h1 : k ∈ rest
      · simp [h1]
      · by_cases h2 : k = v <;> simp [h1, h2]


theorem roomsInv_mapSet {rs : List (String × Room)} {roomId : String} {r₁ : Room}
    (h : roomsInv rs) (h₁ : ∀ x ∈ r₁.isViewerStreaming, x ∈ r₁.approvedViewerIds) :
    roomsInv (mapSet rs roomId r₁) := by
  intro rid r₂ hfind x hx
  rw [mapFind_set] at hfind
  by_cases hrid : rid = roomId
  · rw [if_pos hrid] at hfind
    cases hfind
    exact h₁ x hx
  · rw [if_neg hrid] at hfind
    exact h rid r₂ hfind x hx

theorem roomsInv_mapDel {rs : List (String × Room)} {roomId : String}
    (h : roomsInv rs) : roomsInv (mapDel rs roomId) := by
  intro rid r₂ hfind x hx
  rw [mapFind_del] at hfind
  by_cases hrid : rid = roomId
  · rw [if_pos hrid] at hfind
    simp at hfind
  · rw [if_neg hrid] at hfind
    exact h rid r₂ hfind x hx

theorem processQueuedSignals_fst (s : ServerState) (t : String) :
    (processQueuedSignals s t).1
      = { s with pendingSignals := mapDel s.pendingSignals t }
    ∨ (processQueuedSignals s t).1 = s := by
  unfold processQueuedSignals
  cases mapFind s.pendingSignals t with
  | none => exact Or.inr rfl
  | some q => exact Or.inl rfl

theorem processQueuedSignals_rooms (s : ServerState) (t : String) :
    (processQueuedSignals s t).1.rooms = s.rooms := by
  unfold processQueuedSignals; split <;> rfl

theorem streamInv_onIdentify (s : ServerState) (sid c n : String) (h : streamInv s) :
    streamInv (onIdentify s sid c n).1 := by
  unfold onIdentify
  by_cases h1 : jsTrim c = ""
  · simp only [if_pos h1]; exact h
  · simp only [if_neg h1]
    by_cases h2 : (mapFind s.customIdToSocketId (jsTrim c)).isSome
    · simp only [if_pos h2]; exact h
    · simp only [if_neg h2]
      show roomsInv _
      rw [processQueuedSignals_rooms]
      exact h

theorem streamInv_onCreateRoom (s : ServerState) (sid roomId : String) (h : streamInv s) :
    streamInv (onCreateRoom s sid roomId).1 := by
  unfold onCreateRoom
  by_cases h1 : roomId = ""
  · simp only [if_pos h1]; exact h
  · simp only [if_neg h1]
    by_cases h2 : (mapFind s.rooms roomId).isSome
    · simp only [if_pos h2]; exact h
    · simp only [if_neg h2]
      exact roomsInv_mapSet h (by simp)

theorem streamInv_onJoinRoom (s : ServerState) (sid roomId : String) (h : streamInv s) :
    streamInv (onJoinRoom s sid roomId).1 := by
  unfold onJoinRoom
  cases hr : mapFind s.rooms roomId with
  | none => exact h
  | some r =>
      by_cases hfull : r.viewers.length ≥ 10
      · simp only [if_pos hfull]; exact h
      · simp only [if_neg hfull]
        exact roomsInv_mapSet h (fun x hx => h roomId r hr x hx)

theorem streamInv_onHostStreaming (s : ServerState) (sid roomId : String) (h : streamInv s) :
    streamInv (onHostStreaming s sid roomId).1 := by
  unfold onHostStreaming
  cases hr : mapFind s.rooms roomId with
  | none => exact h
  | some r =>
      by_cases hh : r.hostId ≠ sid
      · simp only [if_pos hh]; exact h
      · simp only [if_neg hh]
        exact roomsInv_mapSet h (fun x hx => h roomId r hr x hx)

theorem streamInv_onViewerStreaming (s : ServerState) (sid roomId : String) (h : streamInv s) :
    streamInv (onViewerStreaming s sid roomId).1 := by
  unfold onViewerStreaming
  cases hr : mapFind s.rooms roomId with
  | none => exact h
  | some r =>
      by_cases happ : sid ∉ r.approvedViewerIds
      · simp only [if_pos happ]; exact h
      · simp only [if_neg happ]
        refine roomsInv_mapSet h ?_
        intro x hx
        rcases (mem_setAdd _ _ _).1 hx with hx' | rfl
        · exact h roomId r hr x hx'
        · exact not_not.1 happ

theorem streamInv_relaySignal (s : ServerState) (sid ev target payload : String)
    (h : streamInv s) : streamInv (relaySignal s sid ev target payload).1 := by
  unfold relaySignal
  repeat' split
  all_goals exact h

theorem streamInv_onSendMessage (s : ServerState) (sid message : String) (h : streamInv s) :
    streamInv (onSendMessage s sid message).1 := by
  unfold onSendMessage
  split
  · exact h
  · split
    · exact h
    · rename_i roomId hmap
      split
      · exact h
      · rename_i r hr
        exact roomsInv_mapSet h (fun x hx => h roomId r hr x hx)

theorem streamInv_leaveRoom (s : ServerState) (sid roomId : String) (h : streamInv s) :
    streamInv (leaveRoom s sid roomId).1 := by
  unfold leaveRoom
  cases hr : mapFind s.rooms roomId with
  | none => exact h
  | some r =>
      by_cases hh : r.hostId = sid
      · simp only [if_pos hh]
        exact roomsInv_mapDel h
      · simp only [if_neg hh]
        by_cases happ : sid ∈ (setDel r.viewers sid, r).2.approvedViewerIds
        · refine roomsInv_mapSet h ?_
          simp only [if_pos happ]
          intro x hx
          rw [mem_setDel] at hx ⊢
          exact ⟨h roomId r hr x hx.1, hx.2⟩
        · refine roomsInv_mapSet h ?_
          simp only [if_neg happ]
          exact fun x hx => h roomId r hr x hx

theorem streamInv_onLeaveRoom (s : ServerState) (sid : String) (h : streamInv s) :
    streamInv (onLeaveRoom s sid).1 := by
  unfold onLeaveRoom
  split
  · exact h
  · exact streamInv_leaveRoom _ _ _ h

theorem streamInv_onDisconnect (s : ServerState) (sid : String) (h : streamInv s) :
    streamInv (onDisconnect s sid).1 := by
  unfold onDisconnect
  dsimp only
  split
  · exact h
  · exact streamInv_leaveRoom _ _ _ h

theorem streamInv_onRequestStream (s : ServerState) (sid : String) (h : streamInv s) :
    streamInv (onRequestStream s sid).1 := by
  unfold onRequestStream
  repeat' split
  all_goals exact h

theorem streamInv_onRespondStreamRequest (s : ServerState) (sid viewerId : String)
    (accepted : Bool) (h : streamInv s) :
    streamInv (onRespondStreamRequest s sid viewerId accepted).1 := by
  unfold onRespondStreamRequest
  split
  · exact h
  · rename_i roomId hmap
    split
    · exact h
    · rename_i r hr
      split
      · exact h
      · split
        · split
          · show roomsInv _
            rw [processQueuedSignals_rooms]
            refine roomsInv_mapSet h ?_
            intro x hx
            exact (mem_setAdd _ _ _).2 (Or.inl (h roomId r hr x hx))
          · exact h
        · exact h

theorem streamInv_onStopViewerStream (s : ServerState) (sid viewerId : String)
    (h : streamInv s) : streamInv (onStopViewerStream s sid viewerId).1 := by
  unfold onStopViewerStream
  split
  · exact h
  · rename_i roomId hmap
    split
    · exact h
    · rename_i r hr
      split
      · exact h
      · split
        · refine roomsInv_mapSet h ?_
          intro x hx
          rw [mem_setDel] at hx ⊢
          exact ⟨h roomId r hr x hx.1, hx.2⟩
        · exact h

theorem streamInv_step (e : Event) (s : ServerState) (h : streamInv s) :
    streamInv (step e s).1 := by
  cases e with
  | identify sid c n => exact streamInv_onIdentify s sid c n h
  | createRoom sid roomId => exact streamInv_onCreateRoom s sid roomId h
  | joinRoom sid roomId => exact streamInv_onJoinRoom s sid roomId h
  | hostStreaming sid roomId => exact streamInv_onHostStreaming s sid roomId h
  | viewerStreaming sid roomId => exact streamInv_onViewerStreaming s sid roomId h
  | offer sid target sdp => exact streamInv_relaySignal s sid "offer" target sdp h
  | answer sid target sdp => exact streamInv_relaySignal s sid "answer" target sdp h
  | iceCandidate sid target candidate =>
      exact streamInv_relaySignal s sid "ice-candidate" target candidate h
  | sendMessage sid message => exact streamInv_onSendMessage s sid message h
  | leaveRoomEvent sid => exact streamInv_onLeaveRoom s sid h
  | disconnect sid => exact streamInv_onDisconnect s sid h
  | requestStream sid => exact streamInv_onRequestStream s sid h
  | respondStreamRequest sid viewerId accepted =>
      exact streamInv_onRespondStreamRequest s sid viewerId accepted h
  | stopViewerStream sid viewerId => exact streamInv_onStopViewerStream s sid viewerId h

/-- C1 (amended): in every reachable server state, every room's set of
currently-streaming viewers is a subset of its approved streamers, and every
inbound event preserves this inclusion.  (The other two inclusions of the
original claim fail; see the counterexample.) -/
theorem streamingViewers_subset_approved_invariant :
    (∀ s, Reachable s → streamInv s) ∧ ∀ e s, streamInv s → streamInv (step e s).1 := by
  constructor
  · intro s hs
    induction hs with
    | init => intro roomId r hr; simp [initState, mapFind] at hr
    | step e hs ih => exact streamInv_step e _ ih
  · exact fun e s h => streamInv_step e s h

theorem streamingViewers_subset_approved_witness :
    streamInv (runTrace [.createRoom "h" "A", .joinRoom "v" "A"]) :=
  streamingViewers_subset_approved_invariant.1 _ (reachable_runTrace _)

/-- C1 as stated is false: after the reachable trace below (the host accepts
a stream request from an identified session that never joined, and the host
has joined its own room), room "A" has an approved streamer outside its
viewer set and its host inside the viewer set. -/
theorem approved_subset_viewers_counterexample :
    Reachable (runTrace [.identify "v" "cv" "nm", .createRoom "h" "A", .joinRoom "h" "A",
        .respondStreamRequest "h" "v" true])
    ∧ ¬ approvedSubsetViewers (runTrace [.identify "v" "cv" "nm", .createRoom "h" "A",
        .joinRoom "h" "A", .respondStreamRequest "h" "v" true]).rooms
    ∧ ¬ hostNotViewer (runTrace [.identify "v" "cv" "nm", .createRoom "h" "A",
        .joinRoom "h" "A", .respondStreamRequest "h" "v" true]).rooms :=
  ⟨reachable_runTrace _,
   fun h => (by decide :
      "v" ∉ (Room.mk "h" ["h"] false false [] ["v"] [] : Room).viewers)
     (h "A" ⟨"h", ["h"], false, false, [], ["v"], []⟩ (by decide) "v" (by decide)),
   fun h => h "A" ⟨"h", ["h"], false, false, [], ["v"], []⟩ (by decide) (by decide)⟩


theorem requestStream_state_eq (s : ServerState) (sid : String) :
    (onRequestStream s sid).1 = s := by
  unfold onRequestStream
  repeat' split
  all_goals rfl

theorem leaveRoom_customIdToSocketId (s : ServerState) (sid roomId : String) :
    (leaveRoom s sid roomId).1.customIdToSocketId = s.customIdToSocketId := by
  unfold leaveRoom
  repeat' split
  all_goals rfl

theorem processQueuedSignals_customIdToSocketId (s : ServerState) (t : String) :
    (processQueuedSignals s t).1.customIdToSocketId = s.customIdToSocketId := by
  unfold processQueuedSignals; split <;> rfl

theorem mapFind_mapDel_some {α : Type} {m : List (String × α)} {k k' : String} {v : α}
    (h : mapFind (mapDel m k) k' = some v) : mapFind m k' = some v := by
  rw [mapFind_del] at h
  by_cases hk : k' = k
  · rw [if_pos hk] at h; cases h
  · rwa [if_neg hk] at h

theorem customId_onCreateRoom (s : ServerState) (sid roomId : String) :
    (onCreateRoom s sid roomId).1.customIdToSocketId = s.customIdToSocketId := by
  unfold onCreateRoom
  repeat' split
  all_goals rfl

theorem customId_onJoinRoom (s : ServerState) (sid roomId : String) :
    (onJoinRoom s sid roomId).1.customIdToSocketId = s.customIdToSocketId := by
  unfold onJoinRoom
  repeat' split
  all_goals rfl

theorem customId_onHostStreaming (s : ServerState) (sid roomId : String) :
    (onHostStreaming s sid roomId).1.customIdToSocketId = s.customIdToSocketId := by
  unfold onHostStreaming
  repeat' split
  all_goals rfl

theorem customId_onViewerStreaming (s : ServerState) (sid roomId : String) :
    (onViewerStreaming s sid roomId).1.customIdToSocketId = s.customIdToSocketId := by
  unfold onViewerStreaming
  repeat' split
  all_goals rfl

theorem customId_relaySignal (s : ServerState) (sid ev target payload : String) :
    (relaySignal s sid ev target payload).1.customIdToSocketId = s.customIdToSocketId := by
  unfold relaySignal
  repeat' split
  all_goals rfl

theorem customId_onSendMessage (s : ServerState) (sid message : String) :
    (onSendMessage s sid message).1.customIdToSocketId = s.customIdToSocketId := by
  unfold onSendMessage
  repeat' split
  all_goals rfl

theorem customId_onLeaveRoom (s : ServerState) (sid : String) :
    (onLeaveRoom s sid).1.customIdToSocketId = s.customIdToSocketId := by
  unfold onLeaveRoom
  split
  · rfl
  · rw [leaveRoom_customIdToSocketId]

theorem customId_onRespondStreamRequest (s : ServerState) (sid viewerId : String)
    (accepted : Bool) :
    (onRespondStreamRequest s sid viewerId accepted).1.customIdToSocketId
      = s.customIdToSocketId := by
  unfold onRespondStreamRequest
  repeat' split
  all_goals first
    | rfl
    | rw [processQueuedSignals_customIdToSocketId]

theorem customId_onStopViewerStream (s : ServerState) (sid viewerId : String) :
    (onStopViewerStream s sid viewerId).1.customIdToSocketId = s.customIdToSocketId := by
  unfold onStopViewerStream
  repeat' split
  all_goals rfl


/-- C4: a join-room request for a room whose viewer set already has ten or
more members yields a room-full rejection to the requester and leaves the
whole server state (viewer set, approved streamers, streaming viewers,
message log, session-to-room map) unchanged. -/
theorem joinRoom_full_rejected (s : ServerState) (sid roomId : String) (r : Room)
    (hr : mapFind s.rooms roomId = some r) (hfull : r.viewers.length ≥ 10) :
    step (.joinRoom sid roomId) s = (s, [⟨.socket sid, "room-full", .empty⟩]) := by
  show onJoinRoom s sid roomId = _
  unfold onJoinRoom
  simp only [hr, if_pos hfull]

theorem joinRoom_full_witness :
    step (.joinRoom "w" "A")
        (runTrace [.createRoom "h" "A", .joinRoom "v0" "A", .joinRoom "v1" "A",
          .joinRoom "v2" "A", .joinRoom "v3" "A", .joinRoom "v4" "A", .joinRoom "v5" "A",
          .joinRoom "v6" "A", .joinRoom "v7" "A", .joinRoom "v8" "A", .joinRoom "v9" "A"])
      = (runTrace [.createRoom "h" "A", .joinRoom "v0" "A", .joinRoom "v1" "A",
          .joinRoom "v2" "A", .joinRoom "v3" "A", .joinRoom "v4" "A", .joinRoom "v5" "A",
          .joinRoom "v6" "A", .joinRoom "v7" "A", .joinRoom "v8" "A", .joinRoom "v9" "A"],
         [⟨.socket "w", "room-full", .empty⟩]) :=
  joinRoom_full_rejected _ "w" "A"
    ⟨"h", ["v0", "v1", "v2", "v3", "v4", "v5", "v6", "v7", "v8", "v9"], false, false, [], [], []⟩
    (by decide) (by decide)

/-- C9: leave-room is idempotent for a departed participant: a leave-room
event from a session with no recorded session-to-room mapping changes no
state and emits nothing. -/
theorem leaveRoom_idempotent_after_departure (s : ServerState) (sid : String)
    (h : mapFind s.socketToRoom sid = none) :
    step (.leaveRoomEvent sid) s = (s, []) := by
  show onLeaveRoom s sid = _
  unfold onLeaveRoom
  simp only [h]

theorem leaveRoom_idempotent_witness :
    step (.leaveRoomEvent "v")
        (runTrace [.createRoom "h" "A", .joinRoom "v" "A", .leaveRoomEvent "v"])
      = (runTrace [.createRoom "h" "A", .joinRoom "v" "A", .leaveRoomEvent "v"], []) :=
  leaveRoom_idempotent_after_departure _ "v" (by decide)

/-- C5: an offer / answer / ice-candidate event with present target and
payload is forwarded immediately (tagged with the sender's id) when the
target is registered, and queued for the target otherwise; its emissions
only ever carry the relayed event name, so no error event reaches the
sender. -/
theorem signaling_relay_or_queue (s : ServerState) (sid target payload : String)
    (ht : target ≠ "") (hp : payload ≠ "") (e : Event) (evName : String)
    (he : (e, evName) ∈ [(Event.offer sid target payload, "offer"),
      (Event.answer sid target payload, "answer"),
      (Event.iceCandidate sid target payload, "ice-candidate")]) :
    (if target ∈ s.socketInstances then
        step e s = (s, [⟨.socket target, evName, .sig ⟨payload, sid⟩⟩])
      else
        step e s
          = ({ s with
                pendingSignals := queueSignal s.pendingSignals target ⟨evName, ⟨payload, sid⟩⟩ },
             []))
    ∧ ∀ em ∈ (step e s).2, em.event = evName := by
  have hrelay : step e s = relaySignal s sid evName target payload := by
    simp only [List.mem_cons, List.mem_singleton, Prod.mk.injEq] at he
    rcases he with ⟨rfl, rfl⟩ | ⟨rfl, rfl⟩ | ⟨⟨rfl, rfl⟩ | h⟩
    · rfl
    · rfl
    · rfl
    · cases h
  have heq : relaySignal s sid evName target payload
      = if target ∈ s.socketInstances then
          (s, [⟨.socket target, evName, .sig ⟨payload, sid⟩⟩])
        else
          ({ s with
              pendingSignals := queueSignal s.pendingSignals target ⟨evName, ⟨payload, sid⟩⟩ },
           []) := by
    unfold relaySignal
    rw [if_neg (by simp [ht, hp])]
  by_cases hreg : target ∈ s.socketInstances
  · rw [if_pos hreg]
    rw [hrelay, heq, if_pos hreg]
    exact ⟨rfl, by intro em hem; simp at hem; rw [hem]⟩
  · rw [if_neg hreg]
    rw [hrelay, heq, if_neg hreg]
    exact ⟨rfl, by intro em hem; simp at hem⟩

theorem signaling_relay_witness :
    (step (.offer "a" "t" "X") initState
        = ({ initState with
              pendingSignals := queueSignal initState.pendingSignals "t" ⟨"offer", ⟨"X", "a"⟩⟩ },
           []))
    ∧ ∀ em ∈ (step (.offer "a" "t" "X") initState).2, em.event = "offer" := by
  have h := signaling_relay_or_queue initState "a" "t" "X" (by decide) (by decide)
    (.offer "a" "t" "X") "offer" (by simp)
  rw [if_neg (by decide)] at h
  exact h

theorem customId_onDisconnect (s : ServerState) (sid : String) {c v : String}
    (h : mapFind (onDisconnect s sid).1.customIdToSocketId c = some v) :
    mapFind s.customIdToSocketId c = some v := by
  unfold onDisconnect at h
  dsimp only at h
  split at h
  · split at h
    · exact mapFind_mapDel_some h
    · exact h
  · rw [leaveRoom_customIdToSocketId] at h
    split at h
    · exact mapFind_mapDel_some h
    · exact h

/-- C6: an identify attempt whose (trimmed) durable id is already bound to a
different live connection is rejected with socket-id-in-use and changes no
state; and apart from identify no event ever creates a durable-id binding. -/
theorem identify_binding_protected :
    (∀ (s : ServerState) (sid c n other : String), jsTrim c ≠ "" →
      mapFind s.customIdToSocketId (jsTrim c) = some other → other ≠ sid →
      step (.identify sid c n) s = (s, [⟨.socket sid, "socket-id-in-use", .empty⟩]))
    ∧ ∀ (e : Event) (s : ServerState) (c v : String),
        mapFind (step e s).1.customIdToSocketId c = some v →
        mapFind s.customIdToSocketId c = some v ∨ ∃ sid cid nm, e = .identify sid cid nm := by
  constructor
  · intro s sid c n other hne hbound hother
    show onIdentify s sid c n = _
    unfold onIdentify
    simp only [if_neg hne, hbound, Option.isSome_some, if_pos]
  · intro e s c v h
    cases e with
    | identify sid cid nm => exact Or.inr ⟨sid, cid, nm, rfl⟩
    | createRoom sid roomId =>
        simp only [step] at h
        rw [customId_onCreateRoom] at h
        exact Or.inl h
    | joinRoom sid roomId =>
        simp only [step] at h
        rw [customId_onJoinRoom] at h
        exact Or.inl h
    | hostStreaming sid roomId =>
        simp only [step] at h
        rw [customId_onHostStreaming] at h
        exact Or.inl h
    | viewerStreaming sid roomId =>
        simp only [step] at h
        rw [customId_onViewerStreaming] at h
        exact Or.inl h
    | offer sid target sdp =>
        simp only [step, onOffer] at h
        rw [customId_relaySignal] at h
        exact Or.inl h
    | answer sid target sdp =>
        simp only [step, onAnswer] at h
        rw [customId_relaySignal] at h
        exact Or.inl h
    | iceCandidate sid target candidate =>
        simp only [step, onIceCandidate] at h
        rw [customId_relaySignal] at h
        exact Or.inl h
    | sendMessage sid message =>
        simp only [step] at h
        rw [customId_onSendMessage] at h
        exact Or.inl h
    | leaveRoomEvent sid =>
        simp only [step] at h
        rw [customId_onLeaveRoom] at h
        exact Or.inl h
    | disconnect sid =>
        simp only [step] at h
        exact Or.inl (customId_onDisconnect s sid h)
    | requestStream sid =>
        simp only [step] at h
        rw [requestStream_state_eq] at h
        exact Or.inl h
    | respondStreamRequest sid viewerId accepted =>
        simp only [step] at h
        rw [customId_onRespondStreamRequest] at h
        exact Or.inl h
    | stopViewerStream sid viewerId =>
        simp only [step] at h
        rw [customId_onStopViewerStream] at h
        exact Or.inl h

theorem identify_binding_protected_witness :
    step (.identify "s2" "c1" "n") (runTrace [.identify "s1" "c1" "n"])
      = (runTrace [.identify "s1" "c1" "n"],
         [⟨.socket "s2", "socket-id-in-use", .empty⟩]) :=
  identify_binding_protected.1 _ "s2" "c1" "n" "s1" (by decide) (by decide) (by decide)


theorem hostAgree_of_eq {rs₁ rs₂ : List (String × Room)} (he : rs₂ = rs₁) :
    hostAgree rs₁ rs₂ := by
  subst he
  intro rid r₀ r₂ h0 h2
  rw [h0] at h2
  cases h2
  rfl

theorem hostAgree_mapSet {rs : List (String × Room)} {roomId : String} {r r₁ : Room}
    (hr : mapFind rs roomId = some r) (hh : r₁.hostId = r.hostId) :
    hostAgree rs (mapSet rs roomId r₁) := by
  intro rid r₀ r₂ h0 h2
  rw [mapFind_set] at h2
  by_cases hrid : rid = roomId
  · subst hrid
    rw [if_pos rfl] at h2
    cases h2
    rw [h0] at hr
    cases hr
    exact hh
  · rw [if_neg hrid] at h2
    rw [h0] at h2
    cases h2
    rfl

theorem hostAgree_mapSet_new {rs : List (String × Room)} {roomId : String} {r₁ : Room}
    (hnone : mapFind rs roomId = none) :
    hostAgree rs (mapSet rs roomId r₁) := by
  intro rid r₀ r₂ h0 h2
  rw [mapFind_set] at h2
  by_cases hrid : rid = roomId
  · subst hrid
    rw [h0] at hnone
    cases hnone
  · rw [if_neg hrid] at h2
    rw [h0] at h2
    cases h2
    rfl

theorem hostAgree_mapDel {rs : List (String × Room)} {roomId : String} :
    hostAgree rs (mapDel rs roomId) := by
  intro rid r₀ r₂ h0 h2
  rw [mapFind_del] at h2
  by_cases hrid : rid = roomId
  · rw [if_pos hrid] at h2
    cases h2
  · rw [if_neg hrid] at h2
    rw [h0] at h2
    cases h2
    rfl

theorem rooms_onIdentify (s : ServerState) (sid c n : String) :
    (onIdentify s sid c n).1.rooms = s.rooms := by
  unfold onIdentify
  by_cases h1 : jsTrim c = ""
  · simp only [if_pos h1]
  · simp only [if_neg h1]
    by_cases h2 : (mapFind s.customIdToSocketId (jsTrim c)).isSome
    · simp only [if_pos h2]
    · simp only [if_neg h2]
      rw [processQueuedSignals_rooms]

theorem rooms_relaySignal (s : ServerState) (sid ev target payload : String) :
    (relaySignal s sid ev target payload).1.rooms = s.rooms := by
  unfold relaySignal
  repeat' split
  all_goals rfl

theorem hostAgree_leaveRoom (s : ServerState) (sid roomId : String)
    {rs : List (String × Room)} (hrs : s.rooms = rs) :
    hostAgree rs (leaveRoom s sid roomId).1.rooms := by
  subst hrs
  unfold leaveRoom
  split
  · exact hostAgree_of_eq rfl
  · rename_i r hr
    split
    · exact hostAgree_mapDel
    · exact hostAgree_mapSet hr (by split <;> rfl)

/-- C8: a room's hostId is the session id of its creator and no event ever
changes the host of an existing room. -/
theorem hostId_fixed :
    (∀ (s : ServerState) (sid roomId : String), roomId ≠ "" → mapFind s.rooms roomId = none →
      mapFind (step (.createRoom sid roomId) s).1.rooms roomId
        = some ⟨sid, [], false, false, [], [], []⟩)
    ∧ ∀ (e : Event) (s : ServerState), hostAgree s.rooms (step e s).1.rooms := by
  constructor
  · intro s sid roomId hne hnone
    show mapFind (onCreateRoom s sid roomId).1.rooms roomId = _
    unfold onCreateRoom
    simp only [if_neg hne, hnone, Option.isSome_none, Bool.false_eq_true, if_false]
    rw [mapFind_set, if_pos rfl]
  · intro e s
    cases e with
    | identify sid c n => exact hostAgree_of_eq (rooms_onIdentify s sid c n)
    | createRoom sid roomId =>
        show hostAgree s.rooms (onCreateRoom s sid roomId).1.rooms
        unfold onCreateRoom
        split
        · exact hostAgree_of_eq rfl
        · split
          · exact hostAgree_of_eq rfl
          · rename_i hsome
            exact hostAgree_mapSet_new (Option.not_isSome_iff_eq_none.1 hsome)
    | joinRoom sid roomId =>
        show hostAgree s.rooms (onJoinRoom s sid roomId).1.rooms
        unfold onJoinRoom
        split
        · exact hostAgree_of_eq rfl
        · rename_i r hr
          split
          · exact hostAgree_of_eq rfl
          · exact hostAgree_mapSet hr rfl
    | hostStreaming sid roomId =>
        show hostAgree s.rooms (onHostStreaming s sid roomId).1.rooms
        unfold onHostStreaming
        split
        · exact hostAgree_of_eq rfl
        · rename_i r hr
          split
          · exact hostAgree_of_eq rfl
          · exact hostAgree_mapSet hr rfl
    | viewerStreaming sid roomId =>
        show hostAgree s.rooms (onViewerStreaming s sid roomId).1.rooms
        unfold onViewerStreaming
        split
        · exact hostAgree_of_eq rfl
        · rename_i r hr
          split
          · exact hostAgree_of_eq rfl
          · exact hostAgree_mapSet hr rfl
    | offer sid target sdp => exact hostAgree_of_eq (rooms_relaySignal s sid "offer" target sdp)
    | answer sid target sdp => exact hostAgree_of_eq (rooms_relaySignal s sid "answer" target sdp)
    | iceCandidate sid target candidate =>
        exact hostAgree_of_eq (rooms_relaySignal s sid "ice-candidate" target candidate)
    | sendMessage sid message =>
        show hostAgree s.rooms (onSendMessage s sid message).1.rooms
        unfold onSendMessage
        split
        · exact hostAgree_of_eq rfl
        · split
          · exact hostAgree_of_eq rfl
          · split
            · exact hostAgree_of_eq rfl
            · rename_i r hr
              exact hostAgree_mapSet hr rfl
    | leaveRoomEvent sid =>
        show hostAgree s.rooms (onLeaveRoom s sid).1.rooms
        unfold onLeaveRoom
        split
        · exact hostAgree_of_eq rfl
        · exact hostAgree_leaveRoom s sid _ rfl
    | disconnect sid =>
        show hostAgree s.rooms (onDisconnect s sid).1.rooms
        unfold onDisconnect
        dsimp only
        split
        · exact hostAgree_of_eq rfl
        · exact hostAgree_leaveRoom _ sid _ rfl
    | requestStream sid =>
        exact hostAgree_of_eq (by rw [show (step (.requestStream sid) s).1 = s from
          requestStream_state_eq s sid])
    | respondStreamRequest sid viewerId accepted =>
        show hostAgree s.rooms (onRespondStreamRequest s sid viewerId accepted).1.rooms
        unfold onRespondStreamRequest
        split
        · exact hostAgree_of_eq rfl
        · split
          · exact hostAgree_of_eq rfl
          · rename_i r hr
            split
            · exact hostAgree_of_eq rfl
            · split
              · split
                · show hostAgree s.rooms (processQueuedSignals _ _).1.rooms
                  rw [processQueuedSignals_rooms]
                  exact hostAgree_mapSet hr rfl
                · exact hostAgree_of_eq rfl
              · exact hostAgree_of_eq rfl
    | stopViewerStream sid viewerId =>
        show hostAgree s.rooms (onStopViewerStream s sid viewerId).1.rooms
        unfold onStopViewerStream
        split
        · exact hostAgree_of_eq rfl
        · split
          · exact hostAgree_of_eq rfl
          · rename_i r hr
            split
            · exact hostAgree_of_eq rfl
            · split
              · exact hostAgree_mapSet hr rfl
              · exact hostAgree_of_eq rfl

theorem hostId_fixed_witness :
    mapFind (step (.createRoom "h" "A") initState).1.rooms "A"
      = some ⟨"h", [], false, false, [], [], []⟩ :=
  hostId_fixed.1 initState "h" "A" (by decide) (by decide)


theorem processQueuedSignals_spec (s : ServerState) (t : String) (q : List Signal)
    (hq : mapFind s.pendingSignals t = some q) (ht : t ∈ s.socketInstances) :
    processQueuedSignals s t
      = ({ s with pendingSignals := mapDel s.pendingSignals t },
         q.map (fun g => Emit.mk (.socket t) g.event (.sig g.data))) := by
  unfold processQueuedSignals
  simp only [hq, if_pos ht]

/-- C2: when a target with a non-empty pending queue becomes reachable —
through a successful identify of that session id, or through a host
acceptance (respond-stream-request, accepted) naming that viewer id — every
queued entry is emitted to the target once, in enqueue order, and the
target's pending queue is removed. -/
theorem pending_queue_drained_on_reachable :
    (∀ (s : ServerState) (target c n : String) (q : List Signal),
      jsTrim c ≠ "" → mapFind s.customIdToSocketId (jsTrim c) = none →
      mapFind s.pendingSignals target = some q →
      (step (.identify target c n) s).2
          = q.map (fun g => Emit.mk (.socket target) g.event (.sig g.data))
        ∧ mapFind (step (.identify target c n) s).1.pendingSignals target = none)
    ∧ ∀ (s : ServerState) (host roomId target : String) (r : Room) (q : List Signal),
        mapFind s.socketToRoom host = some roomId →
        mapFind s.rooms roomId = some r → r.hostId = host →
        target ∈ s.socketInstances →
        mapFind s.pendingSignals target = some q →
        (step (.respondStreamRequest host target true) s).2
            = ⟨.socket target, "stream-request-response", .streamResp true roomId (some host)⟩
                :: q.map (fun g => Emit.mk (.socket target) g.event (.sig g.data))
          ∧ mapFind (step (.respondStreamRequest host target true) s).1.pendingSignals target
              = none := by
  constructor
  · intro s target c n q hne hfree hq
    show (onIdentify s target c n).2 = _ ∧ mapFind (onIdentify s target c n).1.pendingSignals _ = _
    unfold onIdentify
    simp only [if_neg hne, hfree, Option.isSome_none, Bool.false_eq_true, if_false]
    rw [processQueuedSignals_spec]
    · refine ⟨rfl, ?_⟩
      simp [mapFind_del]
    · exact hq
    · exact (mem_setAdd _ _ _).2 (Or.inr rfl)
  · intro s host roomId target r q hmap hr hhost hreg hq
    show (onRespondStreamRequest s host target true).2 = _
      ∧ mapFind (onRespondStreamRequest s host target true).1.pendingSignals _ = _
    unfold onRespondStreamRequest
    simp only [hmap, hr]
    rw [if_neg (show ¬(r.hostId ≠ host) from by simp [hhost])]
    rw [if_pos hreg]
    simp only [if_true]
    rw [processQueuedSignals_spec]
    · refine ⟨rfl, ?_⟩
      simp [mapFind_del]
    · exact hq
    · exact hreg

theorem pending_queue_drained_witness :
    (step (.identify "v1" "c1" "n") (runTrace [.offer "v2" "v1" "X"])).2
        = [⟨.socket "v1", "offer", .sig ⟨"X", "v2"⟩⟩]
      ∧ mapFind (step (.identify "v1" "c1" "n")
          (runTrace [.offer "v2" "v1" "X"])).1.pendingSignals "v1" = none :=
  pending_queue_drained_on_reachable.1 (runTrace [.offer "v2" "v1" "X"]) "v1" "c1" "n"
    [⟨"offer", ⟨"X", "v2"⟩⟩] (by decide) (by decide) (by decide)


theorem emitRoomInfo_none (s : ServerState) (roomId : String)
    (h : mapFind s.rooms roomId = none) : emitRoomInfo s roomId = [] := by
  unfold emitRoomInfo
  simp only [h]

theorem count_roomClosed_zero (vs inst : List String) (v : String) (hv : v ∉ vs) :
    (vs.flatMap (fun w =>
        if w ∈ inst then [Emit.mk (.socket w) "room-closed" .empty] else [])).count
      (Emit.mk (.socket v) "room-closed" .empty) = 0 := by
  induction vs with
  | nil => rfl
  | cons w rest ih =>
      rw [List.flatMap_cons, List.count_append]
      have hwv : w ≠ v := fun h => hv (h ▸ List.mem_cons_self w rest)
      have h1 : (if w ∈ inst then [Emit.mk (.socket w) "room-closed" Payload.empty] else []).count
          (Emit.mk (.socket v) "room-closed" Payload.empty) = 0 := by
        split
        · simp [List.count_cons, Ne.symm hwv]
        · rfl
      rw [h1, ih (fun h => hv (List.mem_cons_of_mem _ h))]

theorem count_roomClosed (vs inst : List String) (v : String) (hnd : vs.Nodup) (hv : v ∈ vs) :
    (vs.flatMap (fun w =>
        if w ∈ inst then [Emit.mk (.socket w) "room-closed" .empty] else [])).count
      (Emit.mk (.socket v) "room-closed" .empty) = if v ∈ inst then 1 else 0 := by
  induction vs with
  | nil => cases hv
  | cons w rest ih =>
      rw [List.flatMap_cons, List.count_append]
      rcases List.mem_cons.1 hv with rfl | hvrest
      · rw [count_roomClosed_zero rest inst v (List.nodup_cons.1 hnd).1]
        by_cases hvin : v ∈ inst
        · simp [hvin, List.count_cons]
        · simp [hvin]
      · have hwv : w ≠ v := fun h => (List.nodup_cons.1 hnd).1 (h ▸ hvrest)
        have h1 : (if w ∈ inst then [Emit.mk (.socket w) "room-closed" Payload.empty] else []).count
            (Emit.mk (.socket v) "room-closed" Payload.empty) = 0 := by
          split
          · simp [List.count_cons, Ne.symm hwv]
          · rfl
        rw [h1, ih (List.nodup_cons.1 hnd).2 hvrest]
        ring

theorem leaveRoom_host_spec (s : ServerState) (sid roomId : String) (r : Room)
    (hr : mapFind s.rooms roomId = some r) (hhost : r.hostId = sid) (hnd : r.viewers.Nodup) :
    mapFind (leaveRoom s sid roomId).1.rooms roomId = none
    ∧ mapFind (leaveRoom s sid roomId).1.socketToRoom sid = none
    ∧ (∀ v ∈ r.viewers, mapFind (leaveRoom s sid roomId).1.socketToRoom v = none)
    ∧ ∀ v ∈ r.viewers,
        (leaveRoom s sid roomId).2.count (Emit.mk (.socket v) "room-closed" .empty)
          = if v ∈ s.socketInstances then 1 else 0 := by
  unfold leaveRoom
  simp only [hr, if_pos hhost]
  refine ⟨?_, ?_, ?_, ?_⟩
  · rw [mapFind_del]
    simp
  · rw [mapFind_del]
    simp
  · intro v hv
    rw [mapFind_del]
    by_cases hvs : v = sid
    · rw [if_pos hvs]
    · rw [if_neg hvs, mapFind_foldl_del, if_pos hv]
  · intro v hv
    rw [emitRoomInfo_none _ _ (by rw [mapFind_del]; simp)]
    rw [List.append_nil, List.count_cons]
    simp only [beq_iff_eq, reduceCtorEq, if_false, add_zero]
    exact count_roomClosed r.viewers s.socketInstances v hnd hv


/-- C3 (amended): when the host leaves or disconnects, the room is deleted
(no successor host), the session-to-room mappings of the host and of all
viewers are removed, and a room-closed notification is sent exactly once to
each viewer whose socket is registered at that moment — and to no other
viewer. -/
theorem host_departure_closes_room :
    ∀ (s : ServerState) (sid roomId : String) (r : Room),
      mapFind s.socketToRoom sid = some roomId →
      mapFind s.rooms roomId = some r → r.hostId = sid → r.viewers.Nodup →
      (mapFind (step (.leaveRoomEvent sid) s).1.rooms roomId = none
        ∧ mapFind (step (.leaveRoomEvent sid) s).1.socketToRoom sid = none
        ∧ (∀ v ∈ r.viewers, mapFind (step (.leaveRoomEvent sid) s).1.socketToRoom v = none)
        ∧ ∀ v ∈ r.viewers,
            (step (.leaveRoomEvent sid) s).2.count (Emit.mk (.socket v) "room-closed" .empty)
              = if v ∈ s.socketInstances then 1 else 0)
      ∧ (mapFind (step (.disconnect sid) s).1.rooms roomId = none
        ∧ mapFind (step (.disconnect sid) s).1.socketToRoom sid = none
        ∧ (∀ v ∈ r.viewers, mapFind (step (.disconnect sid) s).1.socketToRoom v = none)
        ∧ ∀ v ∈ r.viewers,
            (step (.disconnect sid) s).2.count (Emit.mk (.socket v) "room-closed" .empty)
              = if v ∈ setDel s.socketInstances sid then 1 else 0) := by
  intro s sid roomId r hmap hr hhost hnd
  constructor
  · have hstep : step (.leaveRoomEvent sid) s = leaveRoom s sid roomId := by
      show onLeaveRoom s sid = _
      unfold onLeaveRoom
      simp only [hmap]
    rw [hstep]
    exact leaveRoom_host_spec s sid roomId r hr hhost hnd
  · have hstep : step (.disconnect sid) s
        = leaveRoom { s with
            socketInstances := setDel s.socketInstances sid
            pendingSignals := mapDel s.pendingSignals sid
            customIdToSocketId :=
              match mapFind s.socketIdToCustomId sid with
              | some c => mapDel s.customIdToSocketId c
              | none => s.customIdToSocketId
            socketIdToCustomId := mapDel s.socketIdToCustomId sid
            socketName := mapDel s.socketName sid } sid roomId := by
      show onDisconnect s sid = _
      unfold onDisconnect
      dsimp only
      simp only [hmap]
    rw [hstep]
    exact leaveRoom_host_spec _ sid roomId r hr hhost hnd

theorem host_departure_witness :
    mapFind (step (.leaveRoomEvent "h")
        (runTrace [.identify "v" "cv" "x", .createRoom "h" "A", .joinRoom "v" "A"])).1.rooms "A"
      = none :=
  (host_departure_closes_room
    (runTrace [.identify "v" "cv" "x", .createRoom "h" "A", .joinRoom "v" "A"]) "h" "A"
    ⟨"h", ["v"], false, false, [], [], []⟩
    (by decide) (by decide) rfl (by decide)).1.1

/-- C3 as stated is false: after the trace below room "A" has exactly one
viewer, yet the host's leave-room emits no room-closed notification at all,
because the viewer never identified and so is not in the socket registry. -/
theorem host_departure_counterexample :
    (∃ r, mapFind (runTrace [.createRoom "h" "A", .joinRoom "v" "A"]).rooms "A" = some r
        ∧ r.viewers = ["v"])
    ∧ (step (.leaveRoomEvent "h") (runTrace [.createRoom "h" "A", .joinRoom "v" "A"])).2.count
        (Emit.mk (.socket "v") "room-closed" .empty) = 0 :=
  ⟨⟨⟨"h", ["v"], false, false, [], [], []⟩, by decide, rfl⟩, by decide⟩


theorem emitRoomInfo_some (s : ServerState) (roomId : String) (r : Room)
    (h : mapFind s.rooms roomId = some r) :
    emitRoomInfo s roomId
      = [⟨.room roomId, "room-info",
          .roomInfo r.hostId r.viewers.length (decide (r.hostId ∈ s.socketInstances))
            r.isStreaming r.isViewerStreaming r.approvedViewerIds⟩] := by
  unfold emitRoomInfo
  simp only [h]

/-- C7 (amended): a successful join adds the session to the viewer set and
sends it the room snapshot (host id, streaming flag, viewer count, chat
history, approved streamer list); the new viewer is told the host is
streaming whenever the room is streaming, and is notified of every
currently-streaming viewer; but the host is notified of the joiner only when
the room's isHostReady flag is set (i.e. the host has started streaming) and
the host socket is registered — not merely when the host is reachable. -/
theorem join_success_effects (s : ServerState) (sid roomId : String) (r : Room)
    (hr : mapFind s.rooms roomId = some r) (hfull : r.viewers.length < 10) :
    mapFind (step (.joinRoom sid roomId) s).1.rooms roomId
        = some { r with viewers := setAdd r.viewers sid }
    ∧ Emit.mk (.socket sid) "room-joined"
        (.roomJoined roomId r.hostId r.isStreaming (setAdd r.viewers sid).length r.messages
          r.approvedViewerIds) ∈ (step (.joinRoom sid roomId) s).2
    ∧ (Emit.mk (.socket r.hostId) "user-joined" (.str sid) ∈ (step (.joinRoom sid roomId) s).2
        ↔ r.isHostReady = true ∧ r.hostId ∈ s.socketInstances)
    ∧ (r.isStreaming = true →
        Emit.mk (.socket sid) "host-started-streaming" .empty ∈ (step (.joinRoom sid roomId) s).2
        ∧ Emit.mk (.socket sid) "viewer-joined" (.str r.hostId)
            ∈ (step (.joinRoom sid roomId) s).2)
    ∧ ∀ v ∈ r.isViewerStreaming,
        Emit.mk (.socket sid) "viewer-started-streaming" (.str v)
          ∈ (step (.joinRoom sid roomId) s).2 := by
  have hstep : step (.joinRoom sid roomId) s
      = ({ s with
            rooms := mapSet s.rooms roomId { r with viewers := setAdd r.viewers sid }
            socketToRoom := mapSet s.socketToRoom sid roomId },
         [Emit.mk (.socket sid) "room-joined"
            (.roomJoined roomId r.hostId r.isStreaming (setAdd r.viewers sid).length r.messages
              r.approvedViewerIds)]
          ++ (if r.isHostReady then
                if r.hostId ∈ s.socketInstances then
                  [Emit.mk (.socket r.hostId) "user-joined" (.str sid)]
                else []
              else [])
          ++ (if r.isStreaming then
                [Emit.mk (.socket sid) "host-started-streaming" .empty,
                 Emit.mk (.socket sid) "viewer-joined" (.str r.hostId)]
              else [])
          ++ r.isViewerStreaming.map
              (fun v => Emit.mk (.socket sid) "viewer-started-streaming" (.str v))
          ++ emitRoomInfo
              { s with
                rooms := mapSet s.rooms roomId { r with viewers := setAdd r.viewers sid }
                socketToRoom := mapSet s.socketToRoom sid roomId } roomId) := by
    show onJoinRoom s sid roomId = _
    unfold onJoinRoom
    simp only [hr, if_neg (Nat.not_le.2 hfull)]
  have hri : emitRoomInfo
      { s with
        rooms := mapSet s.rooms roomId { r with viewers := setAdd r.viewers sid }
        socketToRoom := mapSet s.socketToRoom sid roomId } roomId
      = [⟨.room roomId, "room-info",
          .roomInfo r.hostId (setAdd r.viewers sid).length
            (decide (r.hostId ∈ s.socketInstances)) r.isStreaming r.isViewerStreaming
            r.approvedViewerIds⟩] := by
    rw [emitRoomInfo_some _ _ { r with viewers := setAdd r.viewers sid }
      (by rw [mapFind_set, if_pos rfl])]
  refine ⟨?_, ?_, ?_, ?_, ?_⟩
  · rw [hstep]
    show mapFind (mapSet s.rooms roomId _) roomId = _
    rw [mapFind_set, if_pos rfl]
  · rw [hstep]
    simp
  · rw [hstep]
    dsimp only
    rw [hri]
    by_cases hready : r.isHostReady
    · by_cases hreg : r.hostId ∈ s.socketInstances
      · simp [hready, hreg]
      · simp [hready, hreg]
    · simp [hready, Bool.not_eq_true _ ▸ hready]
  · rw [hstep]
    intro hstr
    simp [hstr]
  · rw [hstep]
    intro v hv
    simp only [List.mem_append]
    exact Or.inl (Or.inr (List.mem_map_of_mem _ hv))


theorem join_success_witness :
    mapFind (step (.joinRoom "v" "A")
        (runTrace [.identify "h" "ch" "x", .createRoom "h" "A",
          .hostStreaming "h" "A"])).1.rooms "A"
      = some ⟨"h", ["v"], true, true, [], [], []⟩ :=
  (join_success_effects _ "v" "A" ⟨"h", [], true, true, [], [], []⟩ (by decide) (by decide)).1

/-- C7 is false as stated: the host below is reachable (it identified, so
its socket is registered), the room exists and is not full, yet a successful
join emits no user-joined notification, because the room's isHostReady flag
is still false. -/
theorem join_host_not_notified_counterexample :
    "h" ∈ (runTrace [.identify "h" "ch" "x", .createRoom "h" "A"]).socketInstances
    ∧ (step (.joinRoom "v" "A")
        (runTrace [.identify "h" "ch" "x", .createRoom "h" "A"])).2.countP
        (fun em => em.event == "user-joined") = 0 :=
  ⟨by decide, by decide⟩

theorem rooms_leaveRoom_frame (s : ServerState) (sid roomId A : String) (hne : A ≠ roomId) :
    mapFind (leaveRoom s sid roomId).1.rooms A = mapFind s.rooms A := by
  unfold leaveRoom
  split
  · rfl
  · split
    · show mapFind (mapDel _ _) _ = _
      rw [mapFind_del, if_neg hne]
    · show mapFind (mapSet _ _ _) _ = _
      rw [mapFind_set, if_neg hne]

theorem leave_frame_general (s : ServerState) (sid A B : String) (hne : A ≠ B)
    (hmap : mapFind s.socketToRoom sid = some B) :
    mapFind (step (.leaveRoomEvent sid) s).1.rooms A = mapFind s.rooms A := by
  show mapFind (onLeaveRoom s sid).1.rooms A = _
  unfold onLeaveRoom
  simp only [hmap]
  exact rooms_leaveRoom_frame s sid B A hne

theorem disconnect_frame_general (s : ServerState) (sid A B : String) (hne : A ≠ B)
    (hmap : mapFind s.socketToRoom sid = some B) :
    mapFind (step (.disconnect sid) s).1.rooms A = mapFind s.rooms A := by
  show mapFind (onDisconnect s sid).1.rooms A = _
  unfold onDisconnect
  dsimp only
  simp only [hmap]
  rw [rooms_leaveRoom_frame _ _ _ _ hne]

/-- C10: creating or joining a second room B does not remove a session from
room A's viewer set; the session-to-room map then records B, and a
subsequent leave-room or disconnect leaves room A's record (including its
viewer set) unchanged. -/
theorem second_room_membership_preserved :
    ∀ (s : ServerState) (sid A B : String) (rA : Room),
      mapFind s.rooms A = some rA → sid ∈ rA.viewers → A ≠ B →
      ((∀ rB, mapFind s.rooms B = some rB → rB.viewers.length < 10 →
          mapFind (step (.joinRoom sid B) s).1.rooms A = some rA
          ∧ mapFind (step (.joinRoom sid B) s).1.socketToRoom sid = some B
          ∧ mapFind (step (.leaveRoomEvent sid) (step (.joinRoom sid B) s).1).1.rooms A
              = some rA
          ∧ mapFind (step (.disconnect sid) (step (.joinRoom sid B) s).1).1.rooms A = some rA)
        ∧ (B ≠ "" → mapFind s.rooms B = none →
          mapFind (step (.createRoom sid B) s).1.rooms A = some rA
          ∧ mapFind (step (.createRoom sid B) s).1.socketToRoom sid = some B
          ∧ mapFind (step (.leaveRoomEvent sid) (step (.createRoom sid B) s).1).1.rooms A
              = some rA
          ∧ mapFind (step (.disconnect sid) (step (.createRoom sid B) s).1).1.rooms A
              = some rA)) := by
  intro s sid A B rA hrA hsid hne
  constructor
  · intro rB hrB hbfull
    have h1 : (step (.joinRoom sid B) s).1
        = { s with
            rooms := mapSet s.rooms B { rB with viewers := setAdd rB.viewers sid }
            socketToRoom := mapSet s.socketToRoom sid B } := by
      show (onJoinRoom s sid B).1 = _
      unfold onJoinRoom
      simp only [hrB, if_neg (Nat.not_le.2 hbfull)]
    have ha : mapFind (step (.joinRoom sid B) s).1.rooms A = some rA := by
      rw [h1]
      show mapFind (mapSet s.rooms B _) A = _
      rw [mapFind_set, if_neg hne]
      exact hrA
    have hb : mapFind (step (.joinRoom sid B) s).1.socketToRoom sid = some B := by
      rw [h1]
      show mapFind (mapSet s.socketToRoom sid B) sid = _
      rw [mapFind_set, if_pos rfl]
    refine ⟨ha, hb, ?_, ?_⟩
    · rw [leave_frame_general _ sid A B hne hb]
      exact ha
    · rw [disconnect_frame_general _ sid A B hne hb]
      exact ha
  · intro hBne hBnone
    have h1 : (step (.createRoom sid B) s).1
        = { s with
            rooms := mapSet s.rooms B ⟨sid, [], false, false, [], [], []⟩
            socketToRoom := mapSet s.socketToRoom sid B } := by
      show (onCreateRoom s sid B).1 = _
      unfold onCreateRoom
      simp only [if_neg hBne, hBnone, Option.isSome_none, Bool.false_eq_true, if_false]
    have ha : mapFind (step (.createRoom sid B) s).1.rooms A = some rA := by
      rw [h1]
      show mapFind (mapSet s.rooms B _) A = _
      rw [mapFind_set, if_neg hne]
      exact hrA
    have hb : mapFind (step (.createRoom sid B) s).1.socketToRoom sid = some B := by
      rw [h1]
      show mapFind (mapSet s.socketToRoom sid B) sid = _
      rw [mapFind_set, if_pos rfl]
    refine ⟨ha, hb, ?_, ?_⟩
    · rw [leave_frame_general _ sid A B hne hb]
      exact ha
    · rw [disconnect_frame_general _ sid A B hne hb]
      exact ha

theorem second_room_witness :
    mapFind (step (.leaveRoomEvent "v") (step (.joinRoom "v" "B")
        (runTrace [.createRoom "ha" "A", .joinRoom "v" "A",
          .createRoom "hb" "B"])).1).1.rooms "A"
      = some ⟨"ha", ["v"], false, false, [], [], []⟩ :=
  ((second_room_membership_preserved _ "v" "A" "B" ⟨"ha", ["v"], false, false, [], [], []⟩
      (by decide) (by decide) (by decide)).1 ⟨"hb", [], false, false, [], [], []⟩
      (by decide) (by decide)).2.2.1

end Streaming
